import Mathlib

/-!
Verification development for the clinical-protocol suggestion engine.

Shallow embedding of the core algorithmic modules:
  * `lightweight_intelligence.py` — context detection and smart suggestion
    generation (`detect_smart_context`, `generate_smart_suggestions`,
    `_get_regulatory_suggestions`, `_pattern_based_context`,
    `_lexicon_based_context`);
  * `adaptive_learning.py` — the per-user preference model
    (`_update_user_profile` and its three action branches, the text feature
    extractors, profile persistence);
  * `protocol_success_scorer.py` — the corpus success miner
    (`_calculate_approval_score`, `_calculate_amendment_score`,
    `_count_amendments`, `_consolidate_patterns`).

Conventions: Python floats are embedded as `ℚ` (all constants in the source
are small decimals, and the properties of interest are about exact
arithmetic structure, not rounding); Python strings are Lean `String`s;
Python dicts keyed by strings are association lists.  The TF-IDF semantic
similarity signal (an optional sklearn capability) is embedded as an
abstract per-context score function `sim : String → ℚ`; the source
guarantees its values are `max(0, cosine)`, which appears here as an
explicit nonnegativity hypothesis where needed.  The unavailable-capability
fallback (`similarity_scores = {}` followed by `.get(context, 0.0)`) is the
constant-zero function.
-/

namespace ProtoIntel

section

/- Core marks rational arithmetic `@[irreducible]`, which blocks `decide`
from evaluating concrete score computations; restore default reducibility
for this development so concrete runs of the embedded code reduce. -/
attribute [local semireducible] Rat.add Rat.mul Rat.sub Rat.inv

/-! ### Basic Python-style string utilities -/

/-- Python `str.lower()` (ASCII fragment, which covers every table and text
the source compares). -/
def pyLower (s : String) : String :=
  ⟨s.data.map Char.toLower⟩

/-- Python `str.strip()`: drop leading and trailing whitespace. -/
def pyStrip (s : String) : String :=
  ⟨((s.data.dropWhile Char.isWhitespace).reverse.dropWhile Char.isWhitespace).reverse⟩

/-- Python `str.split(sep)` on a single-character separator: split at every
separator occurrence, keeping empty pieces. -/
def splitBy (p : Char → Bool) : List Char → List (List Char)
  | [] => [[]]
  | c :: cs =>
    match splitBy p cs with
    | [] => [[c]]
    | h :: t => if p c then [] :: h :: t else (c :: h) :: t

/-- Python `str.split()` (no argument): split on runs of whitespace and drop
empty pieces.  Tokenizer over the character list; `acc` is the current token
being read, in reverse. -/
def pyTokensAux : List Char → List Char → List (List Char)
  | [], acc =>
    match acc with
    | [] => []
    | _ :: _ => [acc.reverse]
  | c :: cs, acc =>
    if c.isWhitespace then
      match acc with
      | [] => pyTokensAux cs []
      | _ :: _ => acc.reverse :: pyTokensAux cs []
    else pyTokensAux cs (c :: acc)

/-- Python `text.split()`. -/
def pyWords (s : String) : List String :=
  (pyTokensAux s.data []).map fun l => ⟨l⟩

/-- Substring containment on character lists: `needle` occurs contiguously
inside `hay`. -/
def listContains (hay needle : List Char) : Bool :=
  (List.range (hay.length + 1)).any fun i => (hay.drop i).take needle.length == needle

/-- Python `needle in hay` on strings (substring containment). -/
def strContains (hay needle : String) : Bool :=
  listContains hay.data needle.data

/-- `\w` character class of Python `re` (ASCII fragment, which is all the
source's patterns and texts use). -/
def isWordChar (c : Char) : Bool :=
  c.isAlphanum || c == '_'

/-- Python `re` word boundary `\b` at offset `k` of the text `t`
(`0 ≤ k ≤ t.length`): the two sides of the position differ in word-ness,
out-of-range counting as non-word. -/
def boundaryAt (t : List Char) (k : Nat) : Bool :=
  let beforeW := if k = 0 then false else
    match t[k-1]? with
    | some c => isWordChar c
    | none => false
  let afterW :=
    match t[k]? with
    | some c => isWordChar c
    | none => false
  beforeW != afterW

/-- Python `re.search(r'\b' + re.escape(p) + r'\b', text, re.IGNORECASE)`
as a Boolean: the literal pattern `p` (already lowercase in the source
tables) occurs somewhere in `text.lower()` with a word boundary on each
side.  `re.escape` leaves the source's patterns unchanged (they contain
only letters, digits, spaces and `%`, none of which are regex
metacharacters in Python ≥ 3.7). -/
def wordBoundedMatch (p : String) (text : String) : Bool :=
  let t := (pyLower text).data
  let pd := p.data
  (List.range (t.length + 1)).any fun i =>
    ((t.drop i).take pd.length == pd) && boundaryAt t i && boundaryAt t (i + pd.length)

/-- Python `hay.find(needle)`: index of first occurrence, `-1` if absent. -/
def strFind (hay needle : String) : Int :=
  let t := hay.data
  let pd := needle.data
  match (List.range (t.length + 1)).find? (fun i => (t.drop i).take pd.length == pd) with
  | some i => (i : Int)
  | none => -1

/-- Python `min` on two rationals, as an executable conditional (the
Mathlib `min` on `ℚ` does not reduce in the kernel). -/
def pymin (a b : ℚ) : ℚ := if a ≤ b then a else b

/-- Python `max` on two rationals. -/
def pymax (a b : ℚ) : ℚ := if a ≤ b then b else a

theorem pymin_eq (a b : ℚ) : pymin a b = min a b := (min_def a b).symm

theorem pymax_eq (a b : ℚ) : pymax a b = max a b := (max_def a b).symm

/-- Association-list lookup keyed by `String` (Python dict read). -/
def assocFind {β : Type} : List (String × β) → String → Option β
  | [], _ => none
  | kv :: t, k => if kv.1 = k then some kv.2 else assocFind t k

/-- Python `d.get(k, dflt)` for a `ℚ`-valued dict. -/
def lookupD (l : List (String × ℚ)) (k : String) (dflt : ℚ) : ℚ :=
  match assocFind l k with
  | some v => v
  | none => dflt

/-! ### `lightweight_intelligence.py`: static tables -/

/-- One entry of `LightweightIntelligence._load_enhanced_patterns()`:
weighted seed phrases (with their replacement lists), context words,
regulatory flags and a complexity score. -/
structure ContextData where
  primaryPatterns : List (String × ℚ × List String)
  contextWords : List String
  regulatoryFlags : List String
  complexityScore : ℚ

/-- The "dosing" entry of `_load_enhanced_patterns` (transcribed verbatim). -/
def dosingData : ContextData :=
  { primaryPatterns :=
      [ ("as needed", 9/10, ["every 12 hours ± 1 hour", "PRN with minimum 6-hour interval"]),
        ("as tolerated", 4/5, ["with dose reduction per protocol if Grade 2+ toxicity"]),
        ("daily", 7/10, ["once daily at approximately the same time (±2 hours)"]),
        ("twice daily", 7/10, ["every 12 hours ± 1 hour"]) ],
    contextWords := ["dose", "mg", "administration", "medication", "drug", "tablet"],
    regulatoryFlags := ["safe", "no side effects"],
    complexityScore := 4/5 }

/-- The "endpoints" entry of `_load_enhanced_patterns`. -/
def endpointsData : ContextData :=
  { primaryPatterns :=
      [ ("response rate", 9/10, ["objective response rate per RECIST v1.1 criteria"]),
        ("survival", 9/10, ["overall survival defined as time from randomization to death"]),
        ("improvement", 4/5, ["≥30% reduction in symptom severity score"]),
        ("significant", 4/5, ["statistically significant (p<0.05)", "clinically meaningful"]) ],
    contextWords := ["primary", "endpoint", "efficacy", "assessment", "measurement"],
    regulatoryFlags := ["proven effective", "guaranteed"],
    complexityScore := 9/10 }

/-- The "safety" entry of `_load_enhanced_patterns`. -/
def safetyData : ContextData :=
  { primaryPatterns :=
      [ ("safe", 19/20, ["well-tolerated", "demonstrated acceptable safety profile"]),
        ("no side effects", 19/20, ["manageable safety profile", "expected adverse events"]),
        ("monitoring", 7/10, ["safety assessments per CTCAE v5.0"]) ],
    contextWords := ["adverse", "toxicity", "safety", "monitor", "risk"],
    regulatoryFlags := ["completely safe", "100% safe"],
    complexityScore := 17/20 }

/-- The "procedures" entry of `_load_enhanced_patterns`. -/
def proceduresData : ContextData :=
  { primaryPatterns :=
      [ ("daily visits", 9/10, ["visits on Days 1, 3, 7, then weekly", "consider site capacity"]),
        ("frequent monitoring", 4/5, ["weekly assessments for first 4 weeks"]),
        ("extensive testing", 4/5, ["focused assessment battery (estimated 45 minutes)"]) ],
    contextWords := ["visit", "procedure", "assessment", "laboratory", "imaging"],
    regulatoryFlags := [],
    complexityScore := 7/10 }

/-- The "statistics" entry of `_load_enhanced_patterns`. -/
def statisticsData : ContextData :=
  { primaryPatterns :=
      [ ("appropriate sample size", 9/10, ["sample size of N=X provides 80% power to detect"]),
        ("statistical analysis", 4/5, ["statistical analysis per pre-specified plan"]),
        ("significance", 7/10, ["statistical significance (p<0.05)"]) ],
    contextWords := ["power", "sample", "analysis", "statistical", "p-value"],
    regulatoryFlags := [],
    complexityScore := 9/10 }

/-- `_load_enhanced_patterns`. -/
def contextPatterns : List (String × ContextData) :=
  [ ("dosing", dosingData), ("endpoints", endpointsData), ("safety", safetyData),
    ("procedures", proceduresData), ("statistics", statisticsData) ]

/-- The `clinical_trial` lexicon of `_load_domain_lexicons` (verbatim). -/
def clinicalTrialLexicon : List String :=
  ["randomized", "blinded", "placebo", "efficacy", "safety", "adverse",
   "protocol", "endpoint", "participant", "enrollment", "consent"]

/-- The `regulatory` lexicon of `_load_domain_lexicons`. -/
def regulatoryLexicon : List String :=
  ["fda", "ich", "gcp", "compliance", "guidance", "submission",
   "approval", "regulatory", "ctcae", "recist"]

/-- The `statistics` lexicon of `_load_domain_lexicons`. -/
def statisticsLexicon : List String :=
  ["power", "significance", "confidence", "hypothesis", "p-value",
   "sample", "analysis", "statistical", "interim"]

/-- The `operations` lexicon of `_load_domain_lexicons`. -/
def operationsLexicon : List String :=
  ["site", "capacity", "feasible", "timeline", "resources",
   "training", "monitor", "logistics"]

/-- `_load_domain_lexicons`. -/
def domainLexicons : List (String × List String) :=
  [ ("clinical_trial", clinicalTrialLexicon),
    ("regulatory", regulatoryLexicon),
    ("statistics", statisticsLexicon),
    ("operations", operationsLexicon) ]

/-- The `domain_context_map` of `_lexicon_based_context`. -/
def domainContextMap : List (String × List String) :=
  [ ("clinical_trial", ["endpoints", "procedures"]),
    ("regulatory", ["safety", "endpoints"]),
    ("statistics", ["statistics"]),
    ("operations", ["procedures"]) ]

/-- The five context names (key set shared by the pattern table, the lexicon
score dict and the pre-computed context vectors). -/
def allContexts : List String :=
  ["dosing", "endpoints", "safety", "procedures", "statistics"]

/-! ### `lightweight_intelligence.py`: context detection -/

/-- Per-context body of `_pattern_based_context`: sum the weights of seed
phrases occurring as substrings of the lowercased text, add a context-word
density boost capped at `0.5`, and cap the total at `1.0`. -/
def patternScore (text : String) (d : ContextData) : ℚ :=
  pymin
    (d.primaryPatterns.foldl
        (fun acc p => if strContains (pyLower text) p.1 then acc + p.2.1 else acc) 0 +
      pymin (((d.contextWords.filter fun w => strContains (pyLower text) w).length : ℚ) /
          (d.contextWords.length : ℚ)) (1/2))
    1

/-- `_pattern_based_context`. -/
def patternBasedContext (text : String) : List (String × ℚ) :=
  contextPatterns.map fun cd => (cd.1, patternScore text cd.2)

/-- Per-domain body of `_lexicon_based_context`: the fraction of the text's
tokens containing some lexicon word as a substring, capped at `0.3`
(`0` for empty texts, guarding the division). -/
def domainScore (text : String) (lexicon : List String) : ℚ :=
  if pyWords (pyLower text) = [] then 0
  else
    pymin
      ((((pyWords (pyLower text)).filter fun w => lexicon.any fun lex => strContains w lex).length : ℚ) /
        ((pyWords (pyLower text)).length : ℚ))
      (3/10)

/-- `scores[context] += v` on the association list. -/
def addScore (scores : List (String × ℚ)) (c : String) (v : ℚ) : List (String × ℚ) :=
  scores.map fun kv => if kv.1 = c then (kv.1, kv.2 + v) else kv

/-- `_lexicon_based_context`, generalized over the lexicon table and the
domain→context map (the source's loop structure, verbatim; the concrete
instance is `lexiconBasedContext`). -/
def lexiconBasedContextGen (lexicons : List (String × List String))
    (dmap : List (String × List String)) (text : String) : List (String × ℚ) :=
  let init : List (String × ℚ) :=
    [("dosing", 0), ("endpoints", 0), ("safety", 0), ("procedures", 0), ("statistics", 0)]
  lexicons.foldl
    (fun scores dl =>
      let ds := domainScore text dl.2
      match assocFind dmap dl.1 with
      | none => scores
      | some ctxs => ctxs.foldl (fun sc c => addScore sc c (ds / (ctxs.length : ℚ))) scores)
    init

/-- `_lexicon_based_context` with the source's tables. -/
def lexiconBasedContext (text : String) : List (String × ℚ) :=
  lexiconBasedContextGen domainLexicons domainContextMap text

/-- `detect_smart_context`.  `sim` is the TF-IDF similarity signal
(`_tfidf_based_context` composed with `.get(context, 0.0)`); the
unavailable-capability fallback is `sim = fun _ => 0`.  The blend uses the
`0.3/0.3/0.4` weights when the per-context similarity is positive and the
`0.6/0.4` fallback otherwise, capping the result at `1.0`. -/
def detectSmartContext (text : String) (sim : String → ℚ) : List (String × ℚ) :=
  allContexts.map fun c =>
    let p := lookupD (patternBasedContext text) c 0
    let l := lookupD (lexiconBasedContext text) c 0
    let s := sim c
    (c, pymin (if 0 < s then p * (3/10) + l * (3/10) + s * (2/5)
               else p * (3/5) + l * (2/5)) 1)

/-! ### `lightweight_intelligence.py`: suggestion generation -/

/-- The `SmartSuggestion` dataclass.  The purely informational
`smart_features` dict (a heterogeneous diagnostic payload never read by any
code path) is not carried. -/
structure SmartSuggestion where
  original : String
  suggestions : List String
  confidence : ℚ
  rationale : String
  category : String
  severity : String
  position : Int
  contextRelevance : ℚ
  userPersonalization : ℚ
deriving DecidableEq

/-- Python `max(context_scores, key=context_scores.get)`: first key of
maximal value ("general" for an empty dict, per the source's guard). -/
def primaryContext (scores : List (String × ℚ)) : String :=
  match scores with
  | [] => "general"
  | kv :: rest => (rest.foldl (fun best x => if best.2 < x.2 then x else best) kv).1

/-- The `regulatory_patterns` table of `_get_regulatory_suggestions`. -/
def regulatoryPatterns : List (String × List String × ℚ) :=
  [ ("safe", ["well-tolerated", "demonstrated acceptable safety profile"], 19/20),
    ("proven", ["demonstrated efficacy", "evidence supports"], 9/10),
    ("guaranteed", ["expected based on prior studies"], 9/10),
    ("100%", ["high response rate observed"], 17/20) ]

/-- `_get_regulatory_suggestions`. -/
def regulatorySuggestions (text : String) (scores : List (String × ℚ)) :
    List SmartSuggestion :=
  regulatoryPatterns.filterMap fun pr =>
    if wordBoundedMatch pr.1 text then
      some { original := pr.1,
             suggestions := pr.2.1,
             confidence := pr.2.2,
             rationale := "Regulatory compliance: FDA guidance recommends evidence-based language",
             category := "regulatory",
             severity := "high",
             position := strFind (pyLower text) pr.1,
             contextRelevance := pymax (lookupD scores "safety" (1/2)) (lookupD scores "endpoints" (1/2)),
             userPersonalization := 4/5 }
    else none

/-- The sort key of `generate_smart_suggestions`'s final
`sort(key=lambda x: x.confidence * x.context_relevance, reverse=True)`. -/
def sortKey (s : SmartSuggestion) : ℚ :=
  s.confidence * s.contextRelevance

/-- `a` may precede `b` in the descending stable sort: its key is at least
`b`'s. -/
def sugBefore (a b : SmartSuggestion) : Prop :=
  sortKey b ≤ sortKey a

instance : DecidableRel sugBefore := fun _ _ => inferInstanceAs (Decidable (_ ≤ _))

instance : IsTotal SmartSuggestion sugBefore :=
  ⟨fun a b => le_total (sortKey b) (sortKey a)⟩

instance : IsTrans SmartSuggestion sugBefore :=
  ⟨fun _ _ _ h h' => le_trans h' h⟩

/-- `generate_smart_suggestions`.  `pers` is
`fun context => _get_user_personalization(user_id, context)` (the source
returns the constant `0.7` when no user id / profile is supplied); `sim` is
the semantic-similarity signal as in `detectSmartContext`.  Python's
`list.sort` is a stable sort, and a stable sort's output is unique, so it
is embedded as insertion sort on the same descending key. -/
def generateSmartSuggestions (text : String) (pers : String → ℚ) (sim : String → ℚ) :
    List SmartSuggestion :=
  let scores := detectSmartContext text sim
  let primary := primaryContext scores
  let base : List SmartSuggestion :=
    match assocFind contextPatterns primary with
    | none => []
    | some d =>
      d.primaryPatterns.filterMap fun pcs =>
        if wordBoundedMatch pcs.1 text then
          let rel := lookupD scores primary (1/2)
          let up := pers primary
          some { original := pcs.1,
                 suggestions := pcs.2.2,
                 confidence := pcs.2.1 * (2/5) + rel * (3/10) + up * (3/10),
                 rationale := "Context: " ++ primary ++ " | Smart analysis detected precise improvement opportunity",
                 category := primary,
                 severity := if (4/5 : ℚ) < pcs.2.1 then "high" else "medium",
                 position := strFind (pyLower text) pcs.1,
                 contextRelevance := rel,
                 userPersonalization := up }
        else none
  let all := base ++ regulatorySuggestions text scores
  (List.insertionSort sugBefore all).take 6

/-! ### `adaptive_learning.py`: data model -/

/-- The `WritingPattern` dataclass (the per-user profile). -/
structure WritingPattern where
  userId : String
  preferredComplexity : ℚ
  preferredFormality : ℚ
  domainExpertise : List (String × ℚ)
  commonPhrases : List String
  avoidedPhrases : List String
  correctionPatterns : List (String × Nat)
  writingVelocity : ℚ
  activeSessions : Nat
deriving DecidableEq

/-- The `UserAction` dataclass.  The `timestamp` and `user_satisfaction`
fields, which no modelled code path reads, are not carried. -/
structure UserAction where
  userId : String
  actionType : String
  originalText : String
  suggestedText : String
  finalText : String
  context : String
  confidenceBefore : ℚ
deriving DecidableEq

/-- `AdaptiveLearningEngine.learning_rate`. -/
def learningRate : ℚ := 1/10

/-! ### `adaptive_learning.py`: text features and helpers -/

/-- `_calculate_text_complexity`. -/
def textComplexity (text : String) : ℚ :=
  if pyWords text = [] then 0
  else
    pymin
      (((((pyWords text).map String.length).sum : ℚ) / ((pyWords text).length : ℚ) / 10 +
        ((pyWords text).length : ℚ) /
          ((max ((splitBy (fun c => c == '.') text.data).filter
              (fun s => pyStrip ⟨s⟩ ≠ "")).length 1 : ℕ) : ℚ) / 20) / 2)
      1

/-- The indicator tables of `_calculate_text_formality`. -/
def formalIndicators : List String :=
  ["shall", "must", "will", "defined", "specified", "according to"]

def informalIndicators : List String :=
  ["can", "might", "could", "maybe", "pretty", "quite"]

/-- `_calculate_text_formality`. -/
def textFormality (text : String) : ℚ :=
  if (formalIndicators.filter fun s => strContains (pyLower text) s).length +
      (informalIndicators.filter fun s => strContains (pyLower text) s).length = 0 then 1/2
  else
    (((formalIndicators.filter fun s => strContains (pyLower text) s).length : ℕ) : ℚ) /
      ((((formalIndicators.filter fun s => strContains (pyLower text) s).length +
         (informalIndicators.filter fun s => strContains (pyLower text) s).length : ℕ)) : ℚ)

/-- `_extract_key_phrases`: adjacent 2-grams then 3-grams of lowercased
tokens all longer than 3 characters, first 5 kept. -/
def extractKeyPhrases (text : String) : List String :=
  let ws := pyWords (pyLower text)
  let twoGrams := (ws.zip ws.tail).filterMap fun ab =>
    if 3 < ab.1.length ∧ 3 < ab.2.length then some (ab.1 ++ " " ++ ab.2) else none
  let threeGrams := (ws.zip (ws.tail.zip ws.tail.tail)).filterMap fun abc =>
    if 3 < abc.1.length ∧ 3 < abc.2.1.length ∧ 3 < abc.2.2.length then
      some (abc.1 ++ " " ++ abc.2.1 ++ " " ++ abc.2.2)
    else none
  (twoGrams ++ threeGrams).take 5

/-- The keyword table of `_identify_domain`. -/
def domainKeywords : List (String × List String) :=
  [ ("oncology", ["cancer", "tumor", "chemotherapy"]),
    ("cardiology", ["heart", "cardiac", "blood pressure"]),
    ("neurology", ["brain", "neurological", "cognitive"]),
    ("statistics", ["power", "sample", "analysis"]),
    ("regulatory", ["fda", "ich", "compliance"]) ]

/-- `_identify_domain`. -/
def identifyDomain (context : String) : String :=
  let cl := pyLower context
  match domainKeywords.find? (fun dk => dk.2.any fun kw => strContains cl kw) with
  | some dk => dk.1
  | none => "general"

/-- `_classify_suggestion_type`. -/
def classifySuggestionType (text : String) : String :=
  let tl := pyLower text
  if ["every", "hour", "daily", "weekly"].any (fun w => strContains tl w) then
    "timing_precision"
  else if ["well-tolerated", "demonstrated", "established"].any (fun w => strContains tl w) then
    "regulatory_language"
  else if ["assess", "monitor", "evaluate"].any (fun w => strContains tl w) then
    "procedure_clarification"
  else "general_improvement"

/-- Append each new phrase not already present (the source's
`if phrase not in list: list.append(phrase)` loops). -/
def addMissing (cur : List String) (new : List String) : List String :=
  new.foldl (fun acc ph => if ph ∈ acc then acc else acc ++ [ph]) cur

/-- The domain-expertise update of `_reinforce_suggestion`: default the
domain to `0.0` when absent, then add `0.1` capped at `1.0`. -/
def bumpExpertise (m : List (String × ℚ)) (d : String) : List (String × ℚ) :=
  let m' := if m.any (fun kv => kv.1 = d) then m else m ++ [(d, 0)]
  m'.map fun kv => if kv.1 = d then (kv.1, pymin 1 (kv.2 + 1/10)) else kv

/-- The rejection-count update of `_penalize_suggestion`: default the key to
`0` when absent, then increment. -/
def incrCount (m : List (String × Nat)) (k : String) : List (String × Nat) :=
  if m.any (fun kv => kv.1 = k) then
    m.map fun kv => if kv.1 = k then (kv.1, kv.2 + 1) else kv
  else m ++ [(k, 1)]

/-! ### `adaptive_learning.py`: profile updates -/

/-- `_reinforce_suggestion` (the `accept` branch). -/
def reinforceSuggestion (p : WritingPattern) (a : UserAction) : WritingPattern :=
  let complexity := textComplexity a.suggestedText
  let formality := textFormality a.suggestedText
  { p with
    preferredComplexity := p.preferredComplexity * (1 - learningRate) + complexity * learningRate,
    preferredFormality := p.preferredFormality * (1 - learningRate) + formality * learningRate,
    commonPhrases := addMissing p.commonPhrases (extractKeyPhrases a.suggestedText),
    domainExpertise := bumpExpertise p.domainExpertise (identifyDomain a.context) }

/-- `_penalize_suggestion` (the `reject` branch). -/
def penalizeSuggestion (p : WritingPattern) (a : UserAction) : WritingPattern :=
  { p with
    avoidedPhrases := addMissing p.avoidedPhrases (extractKeyPhrases a.suggestedText),
    correctionPatterns := incrCount p.correctionPatterns (classifySuggestionType a.suggestedText) }

/-- `_learn_from_modification` (the `modify` branch).  The Python set
intersection/difference of the two phrase lists is embedded as filtering,
which yields the same membership. -/
def learnFromModification (p : WritingPattern) (a : UserAction) : WritingPattern :=
  let originalComplexity := textComplexity a.suggestedText
  let finalComplexity := textComplexity a.finalText
  let originalPhrases := extractKeyPhrases a.suggestedText
  let finalPhrases := extractKeyPhrases a.finalText
  let kept := originalPhrases.filter fun ph => finalPhrases.contains ph
  let removed := originalPhrases.filter fun ph => !(finalPhrases.contains ph)
  { p with
    preferredComplexity :=
      pymax 0 (pymin 1 (p.preferredComplexity + (finalComplexity - originalComplexity) * learningRate)),
    commonPhrases := addMissing p.commonPhrases kept,
    avoidedPhrases := addMissing p.avoidedPhrases removed }

/-- The action dispatch of `_update_user_profile` (profile-level part;
actions of any other type leave the profile unchanged). -/
def applyAction (p : WritingPattern) (a : UserAction) : WritingPattern :=
  if a.actionType = "accept" then reinforceSuggestion p a
  else if a.actionType = "reject" then penalizeSuggestion p a
  else if a.actionType = "modify" then learnFromModification p a
  else p

/-! ### `adaptive_learning.py`: profile persistence -/

/-- The JSON record written by `_save_user_profile` (the nine-entry
`profile_data` dict).  `json.dumps`/`json.loads` round-trip these value
types exactly, so serialization is embedded at the record level. -/
structure ProfileRecord where
  userId : String
  preferredComplexity : ℚ
  preferredFormality : ℚ
  domainExpertise : List (String × ℚ)
  commonPhrases : List String
  avoidedPhrases : List String
  correctionPatterns : List (String × Nat)
  writingVelocity : ℚ
  activeSessions : Nat
deriving DecidableEq

/-- The dict built by `_save_user_profile`, field for field. -/
def serializeProfile (p : WritingPattern) : ProfileRecord :=
  { userId := p.userId,
    preferredComplexity := p.preferredComplexity,
    preferredFormality := p.preferredFormality,
    domainExpertise := p.domainExpertise,
    commonPhrases := p.commonPhrases,
    avoidedPhrases := p.avoidedPhrases,
    correctionPatterns := p.correctionPatterns,
    writingVelocity := p.writingVelocity,
    activeSessions := p.activeSessions }

/-- The `WritingPattern(**profile_data)` reconstruction of
`_load_user_profiles`. -/
def deserializeProfile (r : ProfileRecord) : WritingPattern :=
  { userId := r.userId,
    preferredComplexity := r.preferredComplexity,
    preferredFormality := r.preferredFormality,
    domainExpertise := r.domainExpertise,
    commonPhrases := r.commonPhrases,
    avoidedPhrases := r.avoidedPhrases,
    correctionPatterns := r.correctionPatterns,
    writingVelocity := r.writingVelocity,
    activeSessions := r.activeSessions }

/-- The `user_profiles` table after `_save_user_profile`'s
`INSERT OR REPLACE` keyed on `user_id`. -/
def saveUserProfile (store : List (String × ProfileRecord)) (p : WritingPattern) :
    List (String × ProfileRecord) :=
  if store.any (fun kv => kv.1 = p.userId) then
    store.map fun kv => if kv.1 = p.userId then (kv.1, serializeProfile p) else kv
  else store ++ [(p.userId, serializeProfile p)]

/-- `_load_user_profiles`: rebuild every stored profile. -/
def loadUserProfiles (store : List (String × ProfileRecord)) :
    List (String × WritingPattern) :=
  store.map fun kv => (kv.1, deserializeProfile kv.2)

/-! ### `protocol_success_scorer.py`: approval and amendment scoring -/

/-- `success_indicators["approval_keywords"]` (transcribed verbatim,
including the capitalized `"FDA approval"` / `"EMA approval"` entries,
which the source compares against lowercased text). -/
def approvalKeywords : List String :=
  ["approved", "successful", "met primary endpoint", "statistically significant",
   "regulatory approval", "FDA approval", "EMA approval", "positive results"]

/-- `success_indicators["failure_keywords"]`. -/
def failureKeywords : List String :=
  ["failed", "terminated early", "futility", "failed to meet endpoint",
   "safety concerns", "discontinued", "negative results", "no significant difference"]

/-- `success_indicators["amendment_indicators"]`. -/
def amendmentIndicators : List String :=
  ["protocol amendment", "substantial amendment", "protocol modification",
   "change in", "revised protocol", "protocol update"]

/-- `_calculate_approval_score`.  `approvalStatus` is
`metadata.get("approval_status", "")`. -/
def calculateApprovalScore (approvalStatus : String) (text : String) : ℚ :=
  let status := pyLower approvalStatus
  if strContains status "approved" then 9/10
  else if strContains status "failed" || strContains status "terminated" then 1/10
  else
    let tl := pyLower text
    let successCount := (approvalKeywords.filter fun k => strContains tl k).length
    let failureCount := (failureKeywords.filter fun k => strContains tl k).length
    if failureCount < successCount then
      pymin (4/5) (1/2 + ((successCount : ℚ) - (failureCount : ℚ)) * (1/10))
    else if successCount < failureCount then
      pymax (1/5) (1/2 - ((failureCount : ℚ) - (successCount : ℚ)) * (1/10))
    else 1/2

/-- Modelled from the spec (§4.4): the claimed approval formula
`0.5 + 0.1*(successHits - failureHits)` clamped to `[0.1, 0.9]`, stated for
comparison against `calculateApprovalScore` in the keyword branch. -/
def claimedApprovalScore (text : String) : ℚ :=
  let tl := pyLower text
  let successCount := (approvalKeywords.filter fun k => strContains tl k).length
  let failureCount := (failureKeywords.filter fun k => strContains tl k).length
  pymin (9/10) (pymax (1/10) (1/2 + ((successCount : ℚ) - (failureCount : ℚ)) * (1/10)))

/-- Count of non-overlapping, left-to-right occurrences of the pattern `p`
in `t` (`re.findall` on a literal pattern; the amendment indicators contain
no regex metacharacters). -/
def countOccs (p : List Char) : List Char → Nat
  | [] => 0
  | c :: rest =>
    if hp : p = [] then 0
    else if p.isPrefixOf (c :: rest) then
      1 + countOccs p (List.drop (p.length - 1) rest)
    else countOccs p rest
termination_by t => t.length
decreasing_by
  · simp only [List.length_drop, List.length_cons]
    omega
  · simp only [List.length_cons]
    omega

/-- `_count_amendments`: total `IGNORECASE` occurrence count of the
amendment indicators (all lowercase in the table). -/
def countAmendments (text : String) : Nat :=
  amendmentIndicators.foldl (fun acc ind => acc + countOccs ind.data (pyLower text).data) 0

/-- The step function at the core of `_calculate_amendment_score`. -/
def amendmentStep (n : Nat) : ℚ :=
  if n = 0 then 9/10
  else if n ≤ 2 then 7/10
  else if n ≤ 5 then 1/2
  else 3/10

/-- `_calculate_amendment_score`. -/
def calculateAmendmentScore (text : String) : ℚ :=
  amendmentStep (countAmendments text)

/-! ### `protocol_success_scorer.py`: pattern consolidation -/

/-- The `SuccessPattern` dataclass. -/
structure SuccessPattern where
  patternId : String
  patternType : String
  patternText : String
  successCorrelation : ℚ
  therapeuticArea : String
  phase : String
  frequency : Nat
  confidence : ℚ
  examples : List String
deriving DecidableEq

/-- The normalization key of `_consolidate_patterns`:
`pattern.pattern_text.lower().strip()`. -/
def normalizeKey (s : String) : String :=
  pyStrip (pyLower s)

/-- One iteration of `_consolidate_patterns`'s loop: bump an existing
entry's frequency, confidence (capped at `0.95`) and examples, or insert a
fresh entry under the normalized key. -/
def consolidateStep (acc : List (String × SuccessPattern)) (pat : SuccessPattern) :
    List (String × SuccessPattern) :=
  if acc.any (fun kv => kv.1 = normalizeKey pat.patternText) then
    acc.map fun kv =>
      if kv.1 = normalizeKey pat.patternText then
        (kv.1, { kv.2 with
                 frequency := kv.2.frequency + 1,
                 confidence := pymin (19/20) (kv.2.confidence + 1/20),
                 examples := kv.2.examples ++ [pat.patternText] })
      else kv
  else acc ++ [(pyStrip (pyLower pat.patternText), pat)]

/-- `_consolidate_patterns`. -/
def consolidatePatterns (ps : List SuccessPattern) : List (String × SuccessPattern) :=
  ps.foldl consolidateStep []

/-! ### Association-list helper lemmas -/

theorem assocFind_map_val {β γ : Type} (f : β → γ) :
    ∀ (l : List (String × β)) (k : String),
      assocFind (l.map fun kv => (kv.1, f kv.2)) k = (assocFind l k).map f := by
  intro l k
  induction l with
  | nil => rfl
  | cons kv t ih =>
    simp only [List.map_cons, assocFind]
    split <;> simp [ih]

theorem assocFind_mapUpdate {β : Type} (g : β → β) :
    ∀ (l : List (String × β)) (k : String) (e : β),
      assocFind l k = some e →
      assocFind (l.map fun kv => if kv.1 = k then (kv.1, g kv.2) else kv) k = some (g e) := by
  intro l k e h
  induction l with
  | nil => simp [assocFind] at h
  | cons kv t ih =>
    by_cases hk : kv.1 = k
    · simp only [assocFind, if_pos hk] at h
      cases h
      simp [assocFind, hk]
    · simp only [assocFind, if_neg hk] at h
      simp [assocFind, hk, ih h]

theorem assocFind_isSome_of_any {β : Type} :
    ∀ (l : List (String × β)) (k : String),
      l.any (fun kv => kv.1 = k) = true → ∃ e, assocFind l k = some e := by
  intro l k h
  induction l with
  | nil => simp at h
  | cons kv t ih =>
    by_cases hk : kv.1 = k
    · exact ⟨kv.2, by simp [assocFind, hk]⟩
    · simp only [List.any_cons, Bool.or_eq_true, decide_eq_true_eq] at h
      rcases h with h | h
      · exact absurd h hk
      · rcases ih h with ⟨e, he⟩
        exact ⟨e, by simp [assocFind, hk, he]⟩

theorem any_key_of_assocFind {β : Type} :
    ∀ (l : List (String × β)) (k : String) (e : β),
      assocFind l k = some e → l.any (fun kv => kv.1 = k) = true := by
  intro l k e h
  induction l with
  | nil => simp [assocFind] at h
  | cons kv t ih =>
    by_cases hk : kv.1 = k
    · simp [hk]
    · simp only [assocFind, if_neg hk] at h
      simp [List.any_cons, ih h]

theorem assocFind_append_right {β : Type} :
    ∀ (l : List (String × β)) (k : String) (v : β),
      l.any (fun kv => kv.1 = k) = false →
      assocFind (l ++ [(k, v)]) k = some v := by
  intro l k v h
  induction l with
  | nil => simp [assocFind]
  | cons kv t ih =>
    simp only [List.any_cons, Bool.or_eq_false_iff, decide_eq_false_iff_not] at h
    simp only [List.cons_append, assocFind, if_neg h.1]
    exact ih (by simp [h.2])

/-! ### C9: profile persistence round-trip -/

theorem deserialize_serialize (p : WritingPattern) :
    deserializeProfile (serializeProfile p) = p := rfl

/-- C9: a user profile written to the record store by `_save_user_profile`
and then read back by `_load_user_profiles` is field-for-field equal to the
original profile, for every prior store content. -/
theorem profile_roundtrip :
    ∀ (store : List (String × ProfileRecord)) (p : WritingPattern),
      assocFind (loadUserProfiles (saveUserProfile store p)) p.userId = some p := by
  intro store p
  have hfind : assocFind (saveUserProfile store p) p.userId = some (serializeProfile p) := by
    unfold saveUserProfile
    split
    · next hany =>
      rcases assocFind_isSome_of_any store p.userId hany with ⟨e, he⟩
      exact assocFind_mapUpdate (fun _ => serializeProfile p) store p.userId e he
    · next hany =>
      exact assocFind_append_right store p.userId (serializeProfile p)
        (Bool.not_eq_true _ ▸ hany)
  unfold loadUserProfiles
  rw [assocFind_map_val deserializeProfile _ p.userId, hfind]
  rfl

/-! ### C7: amendment score step function -/

/-- C7: for every document, the amendment component of the success score is
the monotonically decreasing step function of the amendment count:
0 amendments yield 0.9, a count of at most 2 yields 0.7, a count of at most
5 yields 0.5, and any larger count yields 0.3. -/
theorem amendment_score_step :
    (∀ text, calculateAmendmentScore text = amendmentStep (countAmendments text)) ∧
    (∀ m n : Nat, m ≤ n → amendmentStep n ≤ amendmentStep m) ∧
    amendmentStep 0 = 9/10 ∧
    (∀ n, n ≠ 0 → n ≤ 2 → amendmentStep n = 7/10) ∧
    (∀ n, 2 < n → n ≤ 5 → amendmentStep n = 1/2) ∧
    (∀ n, 5 < n → amendmentStep n = 3/10) := by
  refine ⟨fun _ => rfl, ?_, rfl, ?_, ?_, ?_⟩
  · intro m n h
    unfold amendmentStep
    split_ifs <;> norm_num <;> omega
  · intro n h0 h2
    unfold amendmentStep
    split_ifs <;> first | rfl | omega
  · intro n h2 h5
    unfold amendmentStep
    split_ifs <;> first | rfl | omega
  · intro n h5
    unfold amendmentStep
    split_ifs <;> first | rfl | omega

theorem amendment_score_step_witness :
    amendmentStep 7 ≤ amendmentStep 1 ∧ amendmentStep 1 = 7/10 ∧
      amendmentStep 4 = 1/2 ∧ amendmentStep 7 = 3/10 :=
  ⟨amendment_score_step.2.1 1 7 (by norm_num),
   amendment_score_step.2.2.2.1 1 (by norm_num) (by norm_num),
   amendment_score_step.2.2.2.2.1 4 (by norm_num) (by norm_num),
   amendment_score_step.2.2.2.2.2 7 (by norm_num)⟩

/-! ### C6: the "safe and 100% effective" scenario -/

/-- C6: on the text "This drug is safe and 100% effective" the engine emits
exactly one regulatory-category suggestion — for "safe", severity high.  No
suggestion is produced for "100%": `re.search` wraps the pattern in word
boundaries, and `\b` directly after the non-word character `%` can never
match when `%` is followed by a space or the end of the text, so the
`('100%', …)` entry of `regulatory_patterns` cannot fire here.  This
evaluates the embedded code at the scenario input, exhibiting the
divergence from the documented scenario (at least two regulatory
suggestions). -/
theorem scenario_b_regulatory_eval :
    ((generateSmartSuggestions "This drug is safe and 100% effective"
        (fun _ => 7/10) (fun _ => 0)).filter
      (fun s => s.category == "regulatory")).map (fun s => (s.original, s.severity)) =
        [("safe", "high")] ∧
    wordBoundedMatch "100%" "This drug is safe and 100% effective" = false := by
  constructor
  · decide
  · decide

/-! ### C5: approval score formula and clamp -/

/-- C5 counterexample: for a document with no status metadata and five
success-keyword hits, `_calculate_approval_score` returns 0.8 (the code
clamps the keyword branch to `[0.2, 0.8]`), while the claimed formula
`0.5 + 0.1*(successHits - failureHits)` clamped to `[0.1, 0.9]` gives 0.9. -/
theorem approval_clamp_counterexample :
    calculateApprovalScore ""
        "approved successful positive results met primary endpoint statistically significant"
      = 4/5 ∧
    claimedApprovalScore
        "approved successful positive results met primary endpoint statistically significant"
      = 9/10 ∧
    (4/5 : ℚ) ≠ 9/10 := by
  refine ⟨by decide, by decide, by norm_num⟩

/-- C5 amended: the approval component uses explicit status metadata when it
contains "approved" (score 0.9) or "failed"/"terminated" (score 0.1);
otherwise it equals `0.5 + 0.1*(successHits - failureHits)` clamped to
`[0.2, 0.8]`. -/
theorem approval_score_amended :
    (∀ st text : String, strContains (pyLower st) "approved" = true →
       calculateApprovalScore st text = 9/10) ∧
    (∀ st text : String, strContains (pyLower st) "approved" = false →
       strContains (pyLower st) "failed" = true ∨ strContains (pyLower st) "terminated" = true →
       calculateApprovalScore st text = 1/10) ∧
    (∀ st text : String, strContains (pyLower st) "approved" = false →
       strContains (pyLower st) "failed" = false → strContains (pyLower st) "terminated" = false →
       calculateApprovalScore st text =
         max (1/5) (min (4/5)
           (1/2 + (((approvalKeywords.filter fun k => strContains (pyLower text) k).length : ℚ) -
                   ((failureKeywords.filter fun k => strContains (pyLower text) k).length : ℚ))
                  * (1/10)))) := by
  refine ⟨?_, ?_, ?_⟩
  · intro st text h
    simp [calculateApprovalScore, h]
  · intro st text h1 h2
    rcases h2 with h2 | h2 <;> simp [calculateApprovalScore, h1, h2]
  · intro st text h1 h2 h3
    simp only [calculateApprovalScore, h1, h2, h3, Bool.or_self, Bool.false_eq_true,
      if_false]
    generalize (approvalKeywords.filter fun k => strContains (pyLower text) k).length = s
    generalize (failureKeywords.filter fun k => strContains (pyLower text) k).length = f
    rcases Nat.lt_trichotomy s f with hlt | heq | hgt
    · have hcast : (s : ℚ) + 1 ≤ (f : ℚ) := by exact_mod_cast hlt
      rw [if_neg (by omega), if_pos hlt, pymax_eq]
      have hle : (1:ℚ)/2 + ((s : ℚ) - (f : ℚ)) * (1/10) ≤ 4/5 := by linarith
      rw [min_eq_right hle]
      have hflip : (1:ℚ)/2 - ((f : ℚ) - (s : ℚ)) * (1/10) =
          1/2 + ((s : ℚ) - (f : ℚ)) * (1/10) := by ring
      rw [hflip]
    · subst heq
      rw [if_neg (lt_irrefl s), if_neg (lt_irrefl s)]
      have h0 : (1:ℚ)/2 + ((s : ℚ) - (s : ℚ)) * (1/10) = 1/2 := by ring
      rw [h0, min_eq_right (by norm_num : (1:ℚ)/2 ≤ 4/5),
        max_eq_right (by norm_num : (1:ℚ)/5 ≤ 1/2)]
    · have hcast : (f : ℚ) + 1 ≤ (s : ℚ) := by exact_mod_cast hgt
      rw [if_pos hgt, pymin_eq]
      have h35 : (3:ℚ)/5 ≤ 1/2 + ((s : ℚ) - (f : ℚ)) * (1/10) := by linarith
      rw [max_eq_right (le_min (by norm_num) (by linarith))]

theorem approval_score_amended_witness :
    calculateApprovalScore "Approved 2021" "x" = 9/10 ∧
    calculateApprovalScore "terminated early" "x" = 1/10 :=
  ⟨approval_score_amended.1 "Approved 2021" "x" (by decide),
   approval_score_amended.2.1 "terminated early" "x" (by decide) (Or.inr (by decide))⟩

/-! ### C1: ranking of generated suggestions -/

/-- C1 counterexample: on the text "guaranteed daily dose" (no user, no
semantic capability) the generated list is not sorted non-increasingly by
final confidence: the sort key is `confidence * context_relevance`, and the
"guaranteed" regulatory suggestion (confidence 0.9, relevance 0) sorts
after the "daily" dosing suggestion (confidence 0.646, relevance 0.52), so
the confidences come out increasing. -/
theorem generate_not_sorted_by_confidence :
    ((generateSmartSuggestions "guaranteed daily dose" (fun _ => 7/10) (fun _ => 0)).map
        (fun s => s.confidence)) = [323/500, 9/10] ∧
    ¬ List.Sorted (fun a b : ℚ => b ≤ a)
      ((generateSmartSuggestions "guaranteed daily dose" (fun _ => 7/10) (fun _ => 0)).map
        (fun s => s.confidence)) := by
  constructor
  · decide
  · intro h
    rw [show ((generateSmartSuggestions "guaranteed daily dose" (fun _ => 7/10)
          (fun _ => 0)).map (fun s => s.confidence)) = [323/500, 9/10] from by decide] at h
    have h2 := List.rel_of_sorted_cons h (9/10) (by simp)
    norm_num at h2

/-- C1 amended: the generated suggestion list is sorted non-increasingly by
the product `confidence * context_relevance` (ties keep generation order —
pattern suggestions before regulatory ones — with no severity tie-break),
and is truncated to a fixed top-6 (within the claimed 5–10 range). -/
theorem generate_sorted_by_key_top6 :
    ∀ (text : String) (pers sim : String → ℚ),
      (generateSmartSuggestions text pers sim).length ≤ 6 ∧
      List.Sorted sugBefore (generateSmartSuggestions text pers sim) := by
  intro text pers sim
  constructor
  · unfold generateSmartSuggestions
    rw [List.length_take]
    exact min_le_left _ _
  · unfold generateSmartSuggestions
    exact (List.sorted_insertionSort sugBefore _).sublist (List.take_sublist _ _)

/-! ### C8: pattern consolidation -/

/-- The consolidation table invariant: keys are pairwise distinct and each
entry sits under the normalization of its own pattern text. -/
def ConsolidatedInv (acc : List (String × SuccessPattern)) : Prop :=
  (acc.map Prod.fst).Nodup ∧ ∀ kv ∈ acc, normalizeKey kv.2.patternText = kv.1

theorem consolidateStep_inv (acc : List (String × SuccessPattern)) (pat : SuccessPattern)
    (h : ConsolidatedInv acc) : ConsolidatedInv (consolidateStep acc pat) := by
  obtain ⟨hnd, hkey⟩ := h
  unfold consolidateStep
  split
  · next hany =>
    constructor
    · have hmaps : ((acc.map fun kv =>
          if kv.1 = normalizeKey pat.patternText then
            ((kv.1, { kv.2 with
                     frequency := kv.2.frequency + 1,
                     confidence := pymin (19/20) (kv.2.confidence + 1/20),
                     examples := kv.2.examples ++ [pat.patternText] }) : String × SuccessPattern)
          else kv).map Prod.fst) = acc.map Prod.fst := by
        rw [List.map_map]
        apply List.map_congr_left
        intro kv _
        by_cases hk : kv.1 = normalizeKey pat.patternText <;> simp [hk, Function.comp]
      rw [hmaps]
      exact hnd
    · intro kv hkv
      rcases List.mem_map.mp hkv with ⟨kv0, hkv0, rfl⟩
      split
      · next heq => simpa [heq] using hkey kv0 hkv0
      · exact hkey kv0 hkv0
  · next hany =>
    have hnotin : normalizeKey pat.patternText ∉ acc.map Prod.fst := by
      intro hmem
      rcases List.mem_map.mp hmem with ⟨kv0, hkv0, hfst⟩
      have : acc.any (fun kv => kv.1 = normalizeKey pat.patternText) = true :=
        List.any_eq_true.mpr ⟨kv0, hkv0, by simpa using hfst⟩
      exact hany this
    constructor
    · rw [List.map_append]
      refine List.Nodup.append hnd (List.nodup_singleton _) ?_
      simp only [List.map_cons, List.map_nil, List.disjoint_singleton]
      exact hnotin
    · intro kv hkv
      rcases List.mem_append.mp hkv with hkv | hkv
      · exact hkey kv hkv
      · simp only [List.mem_singleton] at hkv
        subst hkv
        rfl

theorem consolidate_foldl_inv (ps : List SuccessPattern) :
    ∀ acc, ConsolidatedInv acc → ConsolidatedInv (ps.foldl consolidateStep acc) := by
  induction ps with
  | nil => intro acc h; exact h
  | cons p t ih => intro acc h; exact ih _ (consolidateStep_inv acc p h)

/-- C8: consolidation keys patterns by normalized (lowercased, stripped)
text so the table never holds two entries with the same normalized text,
and a repeat sighting of a present key increments that entry's frequency by
1, raises its confidence by 0.05 capped at 0.95, and appends the sighting
to its examples. -/
theorem consolidate_patterns_spec :
    (∀ ps : List SuccessPattern,
       ((consolidatePatterns ps).map Prod.fst).Nodup ∧
       ∀ kv ∈ consolidatePatterns ps, normalizeKey kv.2.patternText = kv.1) ∧
    (∀ (acc : List (String × SuccessPattern)) (pat e : SuccessPattern),
       assocFind acc (normalizeKey pat.patternText) = some e →
       assocFind (consolidateStep acc pat) (normalizeKey pat.patternText) =
         some { e with
                frequency := e.frequency + 1,
                confidence := pymin (19/20) (e.confidence + 1/20),
                examples := e.examples ++ [pat.patternText] }) := by
  constructor
  · intro ps
    exact consolidate_foldl_inv ps [] ⟨List.nodup_nil, by intro kv h; cases h⟩
  · intro acc pat e hfind
    have hany : acc.any (fun kv => kv.1 = normalizeKey pat.patternText) = true :=
      any_key_of_assocFind acc _ e hfind
    unfold consolidateStep
    rw [if_pos hany]
    exact assocFind_mapUpdate
      (fun x => { x with
                  frequency := x.frequency + 1,
                  confidence := pymin (19/20) (x.confidence + 1/20),
                  examples := x.examples ++ [pat.patternText] })
      acc _ e hfind

/-- A concrete success pattern (as `_identify_success_patterns` builds
them) used to exercise the consolidation update. -/
def samplePattern : SuccessPattern :=
  { patternId := "lang_0",
    patternType := "language",
    patternText := "Clear objectives and criteria",
    successCorrelation := 4/5,
    therapeuticArea := "general",
    phase := "general",
    frequency := 1,
    confidence := 4/5,
    examples := ["Clear objectives and criteria"] }

theorem consolidate_patterns_spec_witness :
    assocFind
        (consolidateStep [("clear objectives and criteria", samplePattern)] samplePattern)
        (normalizeKey samplePattern.patternText) =
      some { samplePattern with
             frequency := samplePattern.frequency + 1,
             confidence := pymin (19/20) (samplePattern.confidence + 1/20),
             examples := samplePattern.examples ++ [samplePattern.patternText] } :=
  consolidate_patterns_spec.2 [("clear objectives and criteria", samplePattern)]
    samplePattern samplePattern (by decide)

/-! ### Context-detection evaluation lemmas and bounds -/

theorem patternLookup_dosing (text : String) :
    lookupD (patternBasedContext text) "dosing" 0 = patternScore text dosingData := rfl

theorem patternLookup_endpoints (text : String) :
    lookupD (patternBasedContext text) "endpoints" 0 = patternScore text endpointsData := rfl

theorem patternLookup_safety (text : String) :
    lookupD (patternBasedContext text) "safety" 0 = patternScore text safetyData := rfl

theorem patternLookup_procedures (text : String) :
    lookupD (patternBasedContext text) "procedures" 0 = patternScore text proceduresData := rfl

theorem patternLookup_statistics (text : String) :
    lookupD (patternBasedContext text) "statistics" 0 = patternScore text statisticsData := rfl

theorem lexLookup_dosing (text : String) :
    lookupD (lexiconBasedContext text) "dosing" 0 = 0 := rfl

theorem lexLookup_endpoints (text : String) :
    lookupD (lexiconBasedContext text) "endpoints" 0 =
      0 + domainScore text clinicalTrialLexicon / 2 + domainScore text regulatoryLexicon / 2 := rfl

theorem lexLookup_safety (text : String) :
    lookupD (lexiconBasedContext text) "safety" 0 =
      0 + domainScore text regulatoryLexicon / 2 := rfl

theorem lexLookup_procedures (text : String) :
    lookupD (lexiconBasedContext text) "procedures" 0 =
      0 + domainScore text clinicalTrialLexicon / 2 + domainScore text operationsLexicon / 1 := rfl

theorem lexLookup_statistics (text : String) :
    lookupD (lexiconBasedContext text) "statistics" 0 =
      0 + domainScore text statisticsLexicon / 1 := rfl

theorem foldl_nonneg_mem {α : Type} (step : ℚ → α → ℚ) :
    ∀ (ps : List α) (a : ℚ), 0 ≤ a → (∀ a' p, p ∈ ps → 0 ≤ a' → 0 ≤ step a' p) →
      0 ≤ ps.foldl step a := by
  intro ps
  induction ps with
  | nil => intro a ha _; exact ha
  | cons p t ih =>
    intro a ha hstep
    simp only [List.foldl_cons]
    exact ih _ (hstep a p (List.mem_cons_self p t) ha)
      (fun a' q hq ha' => hstep a' q (List.mem_cons_of_mem p hq) ha')

theorem patternScore_nonneg (text : String) (d : ContextData)
    (hw : ∀ p ∈ d.primaryPatterns, 0 ≤ p.2.1) : 0 ≤ patternScore text d := by
  unfold patternScore
  rw [pymin_eq]
  refine le_min ?_ (by norm_num)
  have hs : (0:ℚ) ≤ d.primaryPatterns.foldl
      (fun acc p => if strContains (pyLower text) p.1 then acc + p.2.1 else acc) 0 := by
    refine foldl_nonneg_mem _ d.primaryPatterns 0 le_rfl ?_
    intro a' p hp ha'
    split
    · have := hw p hp
      linarith
    · exact ha'
  have hb : (0:ℚ) ≤ pymin
      ((((d.contextWords.filter fun w => strContains (pyLower text) w).length : ℚ)) /
        (d.contextWords.length : ℚ)) (1/2) := by
    rw [pymin_eq]
    exact le_min (div_nonneg (by positivity) (by positivity)) (by norm_num)
  linarith

theorem patternScore_le_one (text : String) (d : ContextData) :
    patternScore text d ≤ 1 := by
  unfold patternScore
  rw [pymin_eq]
  exact min_le_right _ _

theorem domainScore_nonneg (text : String) (lex : List String) :
    0 ≤ domainScore text lex := by
  unfold domainScore
  split_ifs
  · exact le_rfl
  · rw [pymin_eq]
    exact le_min (div_nonneg (by positivity) (by positivity)) (by norm_num)

theorem domainScore_le (text : String) (lex : List String) :
    domainScore text lex ≤ 3/10 := by
  unfold domainScore
  split_ifs
  · norm_num
  · rw [pymin_eq]
    exact min_le_right _ _

/-- Bounds for every pattern-based context score the detector reads. -/
theorem patternLookup_bounds (text : String) :
    ∀ c ∈ allContexts, 0 ≤ lookupD (patternBasedContext text) c 0 ∧
      lookupD (patternBasedContext text) c 0 ≤ 1 := by
  intro c hc
  simp only [allContexts, List.mem_cons, List.not_mem_nil, or_false] at hc
  rcases hc with rfl | rfl | rfl | rfl | rfl
  · exact ⟨patternLookup_dosing text ▸ patternScore_nonneg text dosingData (by decide),
      patternLookup_dosing text ▸ patternScore_le_one text dosingData⟩
  · exact ⟨patternLookup_endpoints text ▸ patternScore_nonneg text endpointsData (by decide),
      patternLookup_endpoints text ▸ patternScore_le_one text endpointsData⟩
  · exact ⟨patternLookup_safety text ▸ patternScore_nonneg text safetyData (by decide),
      patternLookup_safety text ▸ patternScore_le_one text safetyData⟩
  · exact ⟨patternLookup_procedures text ▸ patternScore_nonneg text proceduresData (by decide),
      patternLookup_procedures text ▸ patternScore_le_one text proceduresData⟩
  · exact ⟨patternLookup_statistics text ▸ patternScore_nonneg text statisticsData (by decide),
      patternLookup_statistics text ▸ patternScore_le_one text statisticsData⟩

/-- Bounds for every lexicon-based context score the detector reads: each
value is a sum of per-domain scores in `[0, 0.3]` scaled down by the target
count, hence lies in `[0, 0.45]`. -/
theorem lexLookup_bounds (text : String) :
    ∀ c ∈ allContexts, 0 ≤ lookupD (lexiconBasedContext text) c 0 ∧
      lookupD (lexiconBasedContext text) c 0 ≤ 9/20 := by
  intro c hc
  have hct0 := domainScore_nonneg text clinicalTrialLexicon
  have hct1 := domainScore_le text clinicalTrialLexicon
  have hrg0 := domainScore_nonneg text regulatoryLexicon
  have hrg1 := domainScore_le text regulatoryLexicon
  have hst0 := domainScore_nonneg text statisticsLexicon
  have hst1 := domainScore_le text statisticsLexicon
  have hop0 := domainScore_nonneg text operationsLexicon
  have hop1 := domainScore_le text operationsLexicon
  simp only [allContexts, List.mem_cons, List.not_mem_nil, or_false] at hc
  rcases hc with rfl | rfl | rfl | rfl | rfl
  · rw [lexLookup_dosing]; norm_num
  · rw [lexLookup_endpoints]; constructor <;> linarith
  · rw [lexLookup_safety]; constructor <;> linarith
  · rw [lexLookup_procedures]; constructor <;> linarith
  · rw [lexLookup_statistics]; constructor <;> linarith

theorem detectLookup_dosing (text : String) (sim : String → ℚ) :
    lookupD (detectSmartContext text sim) "dosing" 0 =
      pymin (if 0 < sim "dosing" then
               (lookupD (patternBasedContext text) "dosing" 0) * (3/10) +
               (lookupD (lexiconBasedContext text) "dosing" 0) * (3/10) + sim "dosing" * (2/5)
             else
               (lookupD (patternBasedContext text) "dosing" 0) * (3/5) +
               (lookupD (lexiconBasedContext text) "dosing" 0) * (2/5)) 1 := rfl

theorem detectLookup_endpoints (text : String) (sim : String → ℚ) :
    lookupD (detectSmartContext text sim) "endpoints" 0 =
      pymin (if 0 < sim "endpoints" then
               (lookupD (patternBasedContext text) "endpoints" 0) * (3/10) +
               (lookupD (lexiconBasedContext text) "endpoints" 0) * (3/10) + sim "endpoints" * (2/5)
             else
               (lookupD (patternBasedContext text) "endpoints" 0) * (3/5) +
               (lookupD (lexiconBasedContext text) "endpoints" 0) * (2/5)) 1 := rfl

theorem detectLookup_safety (text : String) (sim : String → ℚ) :
    lookupD (detectSmartContext text sim) "safety" 0 =
      pymin (if 0 < sim "safety" then
               (lookupD (patternBasedContext text) "safety" 0) * (3/10) +
               (lookupD (lexiconBasedContext text) "safety" 0) * (3/10) + sim "safety" * (2/5)
             else
               (lookupD (patternBasedContext text) "safety" 0) * (3/5) +
               (lookupD (lexiconBasedContext text) "safety" 0) * (2/5)) 1 := rfl

theorem detectLookup_procedures (text : String) (sim : String → ℚ) :
    lookupD (detectSmartContext text sim) "procedures" 0 =
      pymin (if 0 < sim "procedures" then
               (lookupD (patternBasedContext text) "procedures" 0) * (3/10) +
               (lookupD (lexiconBasedContext text) "procedures" 0) * (3/10) +
                 sim "procedures" * (2/5)
             else
               (lookupD (patternBasedContext text) "procedures" 0) * (3/5) +
               (lookupD (lexiconBasedContext text) "procedures" 0) * (2/5)) 1 := rfl

theorem detectLookup_statistics (text : String) (sim : String → ℚ) :
    lookupD (detectSmartContext text sim) "statistics" 0 =
      pymin (if 0 < sim "statistics" then
               (lookupD (patternBasedContext text) "statistics" 0) * (3/10) +
               (lookupD (lexiconBasedContext text) "statistics" 0) * (3/10) +
                 sim "statistics" * (2/5)
             else
               (lookupD (patternBasedContext text) "statistics" 0) * (3/5) +
               (lookupD (lexiconBasedContext text) "statistics" 0) * (2/5)) 1 := rfl

/-! ### C2: the blend rule -/

/-- C2: for every input text, the detector combines the per-context signals
as `0.3*pattern + 0.3*lexicon + 0.4*semantic` whenever the per-context
semantic-similarity signal is positive, and as `0.6*pattern + 0.4*lexicon`
otherwise.  The hypotheses are the source's guarantees on the similarity
signal (`max(0, cosine_similarity)` with cosine at most 1); under them the
final `min(·, 1.0)` cap never binds, so the detector's value is exactly the
blend. -/
theorem detect_blend_rule :
    ∀ (text : String) (sim : String → ℚ),
      (∀ c, 0 ≤ sim c) → (∀ c, sim c ≤ 1) →
      ∀ c ∈ allContexts,
        lookupD (detectSmartContext text sim) c 0 =
          if 0 < sim c then
            (lookupD (patternBasedContext text) c 0) * (3/10) +
            (lookupD (lexiconBasedContext text) c 0) * (3/10) + sim c * (2/5)
          else
            (lookupD (patternBasedContext text) c 0) * (3/5) +
            (lookupD (lexiconBasedContext text) c 0) * (2/5) := by
  intro text sim hs0 hs1 c hc
  have hp := patternLookup_bounds text c hc
  have hl := lexLookup_bounds text c hc
  have hcap : (if 0 < sim c then
      (lookupD (patternBasedContext text) c 0) * (3/10) +
      (lookupD (lexiconBasedContext text) c 0) * (3/10) + sim c * (2/5)
    else
      (lookupD (patternBasedContext text) c 0) * (3/5) +
      (lookupD (lexiconBasedContext text) c 0) * (2/5)) ≤ 1 := by
    have := hs0 c
    have := hs1 c
    split_ifs <;> nlinarith [hp.1, hp.2, hl.1, hl.2]
  simp only [allContexts, List.mem_cons, List.not_mem_nil, or_false] at hc
  rcases hc with rfl | rfl | rfl | rfl | rfl
  · rw [detectLookup_dosing, pymin_eq, min_eq_left hcap]
  · rw [detectLookup_endpoints, pymin_eq, min_eq_left hcap]
  · rw [detectLookup_safety, pymin_eq, min_eq_left hcap]
  · rw [detectLookup_procedures, pymin_eq, min_eq_left hcap]
  · rw [detectLookup_statistics, pymin_eq, min_eq_left hcap]

theorem detect_blend_rule_witness :
    lookupD (detectSmartContext "daily dose" (fun _ => 1/2)) "dosing" 0 =
      (if 0 < ((1:ℚ)/2) then
        (lookupD (patternBasedContext "daily dose") "dosing" 0) * (3/10) +
        (lookupD (lexiconBasedContext "daily dose") "dosing" 0) * (3/10) + (1/2) * (2/5)
      else
        (lookupD (patternBasedContext "daily dose") "dosing" 0) * (3/5) +
        (lookupD (lexiconBasedContext "daily dose") "dosing" 0) * (2/5)) :=
  detect_blend_rule "daily dose" (fun _ => 1/2)
    (fun _ => by norm_num) (fun _ => by norm_num) "dosing" (by decide)

/-! ### C3: detector ranges and edge cases -/

theorem lookupD_all_zero :
    ∀ (l : List (String × ℚ)) (c : String), (∀ kv ∈ l, kv.2 = 0) → lookupD l c 0 = 0 := by
  intro l c h
  induction l with
  | nil => rfl
  | cons kv t ih =>
    by_cases hk : kv.1 = c
    · simp only [lookupD, assocFind, if_pos hk]
      exact h kv (List.mem_cons_self kv t)
    · simp only [lookupD, assocFind, if_neg hk]
      exact ih (fun kv' h' => h kv' (List.mem_cons_of_mem kv h'))

theorem domainScore_nil (text : String) : domainScore text [] = 0 := by
  unfold domainScore
  split_ifs
  · rfl
  · rw [pymin_eq]
    have h0 : ((((pyWords (pyLower text)).filter
        fun w => ([] : List String).any fun lex => strContains w lex).length : ℚ)) = 0 := by
      simp
    rw [h0, zero_div]
    exact min_eq_left (by norm_num)

theorem addScore_zero_values (sc : List (String × ℚ)) (c : String)
    (h : ∀ kv ∈ sc, kv.2 = 0) : ∀ kv ∈ addScore sc c 0, kv.2 = 0 := by
  intro kv hkv
  rcases List.mem_map.mp hkv with ⟨kv0, hkv0, rfl⟩
  split
  · simpa using h kv0 hkv0
  · exact h kv0 hkv0

theorem foldl_addScore_zero_values (ctxs : List String) :
    ∀ (sc : List (String × ℚ)), (∀ kv ∈ sc, kv.2 = 0) →
      ∀ kv ∈ ctxs.foldl (fun sc c => addScore sc c 0) sc, kv.2 = 0 := by
  induction ctxs with
  | nil => intro sc h; exact h
  | cons c t ih =>
    intro sc h
    simp only [List.foldl_cons]
    exact ih _ (addScore_zero_values sc c h)

/-- C3: every context value the detector returns lies in `[0,1]` (given the
source's nonnegativity guarantee on the similarity signal); the empty text
yields the all-zero score vector (the TF-IDF transform of the empty string
is the zero vector, so its similarities are 0, which is the hypothesis);
and a domain configured with an empty keyword list contributes a lexicon
score of 0 to every context — no division-by-zero, since the division is by
the token count and is guarded. -/
theorem detect_ranges_and_edges :
    (∀ (text : String) (sim : String → ℚ), (∀ c, 0 ≤ sim c) →
       ∀ kv ∈ detectSmartContext text sim, 0 ≤ kv.2 ∧ kv.2 ≤ 1) ∧
    (∀ sim : String → ℚ, (∀ c, sim c = 0) →
       ∀ kv ∈ detectSmartContext "" sim, kv.2 = 0) ∧
    (∀ (text dom : String) (dmap : List (String × List String)) (c : String),
       lookupD (lexiconBasedContextGen [(dom, [])] dmap text) c 0 = 0) := by
  refine ⟨?_, ?_, ?_⟩
  · intro text sim hs0 kv hkv
    obtain ⟨c, hc, rfl⟩ := List.mem_map.mp hkv
    have hp := patternLookup_bounds text c hc
    have hl := lexLookup_bounds text c hc
    have hsc := hs0 c
    constructor
    · simp only
      rw [pymin_eq]
      refine le_min ?_ (by norm_num)
      split_ifs <;> nlinarith [hp.1, hl.1]
    · simp only
      rw [pymin_eq]
      exact min_le_right _ _
  · intro sim hsim kv hkv
    obtain ⟨c, hc, rfl⟩ := List.mem_map.mp hkv
    have hp : lookupD (patternBasedContext "") c 0 = 0 :=
      lookupD_all_zero (patternBasedContext "") c (by decide)
    have hl : lookupD (lexiconBasedContext "") c 0 = 0 :=
      lookupD_all_zero (lexiconBasedContext "") c (by decide)
    simp only
    rw [hsim c, if_neg (lt_irrefl 0), hp, hl, pymin_eq]
    rw [show (0:ℚ) * (3/5) + 0 * (2/5) = 0 by ring]
    exact min_eq_left (by norm_num)
  · intro text dom dmap c
    unfold lexiconBasedContextGen
    simp only [List.foldl_cons, List.foldl_nil]
    cases hm : assocFind dmap dom with
    | none =>
      exact lookupD_all_zero
        [("dosing", 0), ("endpoints", 0), ("safety", 0), ("procedures", 0), ("statistics", 0)]
        c (by decide)
    | some ctxs =>
      have hv : domainScore text [] / ((ctxs.length : ℕ) : ℚ) = 0 := by
        rw [domainScore_nil, zero_div]
      simp only [hv]
      exact lookupD_all_zero _ c
        (foldl_addScore_zero_values ctxs _ (by decide))

theorem detect_ranges_and_edges_witness :
    (∀ kv ∈ detectSmartContext "daily dose" (fun _ => 1/2), 0 ≤ kv.2 ∧ kv.2 ≤ 1) ∧
    (∀ kv ∈ detectSmartContext "" (fun _ => 0), kv.2 = 0) :=
  ⟨detect_ranges_and_edges.1 "daily dose" (fun _ => 1/2) (fun _ => by norm_num),
   detect_ranges_and_edges.2.1 (fun _ => 0) (fun _ => rfl)⟩

/-! ### C4: profile clamp invariants -/

theorem textComplexity_nonneg (text : String) : 0 ≤ textComplexity text := by
  unfold textComplexity
  split_ifs
  · exact le_rfl
  · rw [pymin_eq]
    refine le_min ?_ (by norm_num)
    positivity

theorem textComplexity_le_one (text : String) : textComplexity text ≤ 1 := by
  unfold textComplexity
  split_ifs
  · norm_num
  · rw [pymin_eq]
    exact min_le_right _ _

theorem textFormality_nonneg (text : String) : 0 ≤ textFormality text := by
  unfold textFormality
  split_ifs
  · norm_num
  · positivity

theorem textFormality_le_one (text : String) : textFormality text ≤ 1 := by
  unfold textFormality
  split_ifs with h
  · norm_num
  · rw [div_le_one (by exact_mod_cast Nat.pos_of_ne_zero h)]
    exact_mod_cast Nat.le_add_right _ _

/-- The `[0,1]` clamp invariant of the spec on a user profile's scalar
fields: preferred complexity, preferred formality, and every domain
expertise value. -/
def ProfileInUnit (p : WritingPattern) : Prop :=
  0 ≤ p.preferredComplexity ∧ p.preferredComplexity ≤ 1 ∧
  0 ≤ p.preferredFormality ∧ p.preferredFormality ≤ 1 ∧
  ∀ kv ∈ p.domainExpertise, 0 ≤ kv.2 ∧ kv.2 ≤ 1

theorem bumpExpertise_values (m : List (String × ℚ)) (d : String)
    (h : ∀ kv ∈ m, 0 ≤ kv.2 ∧ kv.2 ≤ 1) :
    ∀ kv ∈ bumpExpertise m d, 0 ≤ kv.2 ∧ kv.2 ≤ 1 := by
  intro kv hkv
  unfold bumpExpertise at hkv
  rcases List.mem_map.mp hkv with ⟨kv0, hkv0, rfl⟩
  have h0 : 0 ≤ kv0.2 ∧ kv0.2 ≤ 1 := by
    rcases (by split at hkv0 <;> simp_all [List.mem_append] :
        kv0 ∈ m ∨ kv0 = (d, (0:ℚ))) with hin | heq
    · exact h kv0 hin
    · rw [heq]; norm_num
  split
  · constructor
    · simp only
      rw [pymin_eq]
      refine le_min (by norm_num) ?_
      linarith [h0.1]
    · simp only
      rw [pymin_eq]
      exact min_le_left _ _
  · exact h0

theorem applyAction_preserves (p : WritingPattern) (a : UserAction)
    (h : ProfileInUnit p) : ProfileInUnit (applyAction p a) := by
  obtain ⟨hc0, hc1, hf0, hf1, hd⟩ := h
  unfold applyAction
  split_ifs
  · -- accept
    unfold reinforceSuggestion
    refine ⟨?_, ?_, ?_, ?_, ?_⟩
    · simp only
      have := textComplexity_nonneg a.suggestedText
      unfold learningRate
      linarith
    · simp only
      have := textComplexity_le_one a.suggestedText
      unfold learningRate
      linarith
    · simp only
      have := textFormality_nonneg a.suggestedText
      unfold learningRate
      linarith
    · simp only
      have := textFormality_le_one a.suggestedText
      unfold learningRate
      linarith
    · exact bumpExpertise_values _ _ hd
  · -- reject
    unfold penalizeSuggestion
    exact ⟨hc0, hc1, hf0, hf1, hd⟩
  · -- modify
    unfold learnFromModification
    refine ⟨?_, ?_, hf0, hf1, hd⟩
    · simp only
      rw [pymax_eq]
      exact le_max_left 0 _
    · simp only
      rw [pymax_eq, pymin_eq]
      exact max_le (by norm_num) (min_le_left _ _)
  · exact ⟨hc0, hc1, hf0, hf1, hd⟩

/-- C4: for every user profile whose scalar fields lie in `[0,1]` and every
finite sequence of user actions (accept / reject / modify / other), the
scalar fields `preferred_complexity` and `preferred_formality` and every
value in `domain_expertise` remain within `[0,1]` after each update. -/
theorem profile_clamp_invariant :
    ∀ (p : WritingPattern), ProfileInUnit p →
      ∀ acts : List UserAction, ProfileInUnit (acts.foldl applyAction p) := by
  intro p hp acts
  induction acts generalizing p with
  | nil => exact hp
  | cons a t ih =>
    simp only [List.foldl_cons]
    exact ih _ (applyAction_preserves p a hp)

/-- A fresh profile as `_update_user_profile` initializes it. -/
def freshProfile : WritingPattern :=
  { userId := "writer-1",
    preferredComplexity := 1/2,
    preferredFormality := 1/2,
    domainExpertise := [],
    commonPhrases := [],
    avoidedPhrases := [],
    correctionPatterns := [],
    writingVelocity := 0,
    activeSessions := 0 }

/-- A concrete accepted-suggestion action. -/
def sampleAccept : UserAction :=
  { userId := "writer-1",
    actionType := "accept",
    originalText := "as needed",
    suggestedText := "every 12 hours with food",
    finalText := "every 12 hours with food",
    context := "dosing guidance for the cancer protocol",
    confidenceBefore := 9/10 }

/-- A concrete modification action. -/
def sampleModify : UserAction :=
  { sampleAccept with
    actionType := "modify",
    finalText := "every 12 hours" }

theorem profile_clamp_invariant_witness :
    ProfileInUnit (List.foldl applyAction freshProfile [sampleAccept, sampleModify]) :=
  profile_clamp_invariant freshProfile
    (by refine ⟨by norm_num [freshProfile], by norm_num [freshProfile],
          by norm_num [freshProfile], by norm_num [freshProfile], ?_⟩
        intro kv hkv
        simp [freshProfile] at hkv)
    [sampleAccept, sampleModify]

/-! ### C10: key-phrase extraction -/

theorem pyTokensAux_tokens :
    ∀ (cs acc : List Char), (∀ ch ∈ acc, ch.isWhitespace = false) →
      ∀ t ∈ pyTokensAux cs acc, t ≠ [] ∧ ∀ ch ∈ t, ch.isWhitespace = false := by
  intro cs
  induction cs with
  | nil =>
    intro acc hacc t ht
    cases acc with
    | nil => simp [pyTokensAux] at ht
    | cons a as =>
      simp only [pyTokensAux, List.mem_singleton] at ht
      subst ht
      exact ⟨by simp, fun ch hch => hacc ch (List.mem_reverse.mp hch)⟩
  | cons c cs ih =>
    intro acc hacc t ht
    by_cases hw : c.isWhitespace
    · cases acc with
      | nil =>
        rw [show pyTokensAux (c :: cs) [] = pyTokensAux cs [] from by
          simp [pyTokensAux, hw]] at ht
        exact ih [] (fun ch hch => absurd hch (List.not_mem_nil ch)) t ht
      | cons a as =>
        rw [show pyTokensAux (c :: cs) (a :: as) = (a :: as).reverse :: pyTokensAux cs [] from by
          simp [pyTokensAux, hw]] at ht
        rcases List.mem_cons.mp ht with rfl | ht'
        · exact ⟨by simp, fun ch hch => hacc ch (List.mem_reverse.mp hch)⟩
        · exact ih [] (fun ch hch => absurd hch (List.not_mem_nil ch)) t ht'
    · rw [show pyTokensAux (c :: cs) acc = pyTokensAux cs (c :: acc) from by
        simp [pyTokensAux, hw]] at ht
      refine ih (c :: acc) ?_ t ht
      intro ch hch
      rcases List.mem_cons.mp hch with rfl | hch'
      · exact Bool.eq_false_iff.mpr hw
      · exact hacc ch hch'

theorem pyWords_tokens (s : String) :
    ∀ w ∈ pyWords s, w.data ≠ [] ∧ ∀ ch ∈ w.data, ch.isWhitespace = false := by
  intro w hw
  rcases List.mem_map.mp hw with ⟨t, ht, rfl⟩
  exact pyTokensAux_tokens s.data [] (fun ch hch => absurd hch (List.not_mem_nil ch)) t ht

/-- A token as `_extract_key_phrases` filters them: longer than 3
characters and free of whitespace (it came out of `str.split()`). -/
def pyToken (w : String) : Prop :=
  3 < w.length ∧ ∀ ch ∈ w.data, ch.isWhitespace = false

/-- The shape of every phrase `_extract_key_phrases` can emit: two or three
whitespace-free tokens, each longer than 3 characters, joined by single
spaces. -/
def goodPhrase (p : String) : Prop :=
  (∃ a b, pyToken a ∧ pyToken b ∧ p = a ++ " " ++ b) ∨
  (∃ a b c, pyToken a ∧ pyToken b ∧ pyToken c ∧ p = a ++ " " ++ b ++ " " ++ c)

theorem extract_good (text : String) : ∀ p ∈ extractKeyPhrases text, goodPhrase p := by
  intro p hp
  unfold extractKeyPhrases at hp
  have hp' := List.mem_of_mem_take hp
  rcases List.mem_append.mp hp' with h2 | h3
  · rcases List.mem_filterMap.mp h2 with ⟨ab, hab, heq⟩
    split at heq
    · next hcond =>
      rcases List.of_mem_zip hab with ⟨ha, hb⟩
      cases heq
      exact Or.inl ⟨ab.1, ab.2,
        ⟨hcond.1, (pyWords_tokens _ ab.1 ha).2⟩,
        ⟨hcond.2, (pyWords_tokens _ ab.2 (List.mem_of_mem_tail hb)).2⟩, rfl⟩
    · cases heq
  · rcases List.mem_filterMap.mp h3 with ⟨abc, habc, heq⟩
    split at heq
    · next hcond =>
      rcases List.of_mem_zip habc with ⟨ha, hbc⟩
      rcases List.of_mem_zip hbc with ⟨hb, hc⟩
      cases heq
      exact Or.inr ⟨abc.1, abc.2.1, abc.2.2,
        ⟨hcond.1, (pyWords_tokens _ abc.1 ha).2⟩,
        ⟨hcond.2.1, (pyWords_tokens _ abc.2.1 (List.mem_of_mem_tail hb)).2⟩,
        ⟨hcond.2.2, (pyWords_tokens _ abc.2.2
          (List.mem_of_mem_tail (List.mem_of_mem_tail hc))).2⟩, rfl⟩
    · cases heq

theorem not_goodPhrase_as_needed : ¬ goodPhrase "as needed" := by
  rintro (⟨a, b, ⟨ha4, hanw⟩, ⟨hb4, _⟩, heq⟩ | ⟨a, b, c, ⟨ha4, _⟩, ⟨hb4, _⟩, ⟨hc4, _⟩, heq⟩)
  · have hdata : a.data ++ ' ' :: b.data = "as needed".data := by
      have h := congrArg String.data heq
      simpa [String.data_append] using h.symm
    have hlen : a.length + (b.length + 1) = 9 := by
      have := congrArg List.length hdata
      simpa using this
    have ha9 : a.data.length = 4 := by
      have h1 : a.length = a.data.length := rfl
      have h2 : b.length = b.data.length := rfl
      rw [h1, h2] at hlen
      have ha' : 3 < a.data.length := ha4
      have hb' : 3 < b.data.length := hb4
      omega
    have htake : a.data = ("as needed".data).take a.data.length := by
      rw [← hdata, List.take_left]
    rw [ha9] at htake
    have hsp : ' ' ∈ a.data := by
      rw [htake]
      decide
    have := hanw ' ' hsp
    simp at this
  · have hdata : a.data ++ ' ' :: (b.data ++ ' ' :: c.data) = "as needed".data := by
      have h := congrArg String.data heq
      simpa [String.data_append] using h.symm
    have hlen : a.length + (b.length + (c.length + 1) + 1) = 9 := by
      have := congrArg List.length hdata
      simpa using this
    have ha' : 3 < a.length := ha4
    have hb' : 3 < b.length := hb4
    have hc' : 3 < c.length := hc4
    omega

theorem as_needed_not_extracted (text : String) :
    "as needed" ∉ extractKeyPhrases text :=
  fun h => not_goodPhrase_as_needed (extract_good text _ h)

theorem mem_addMissing :
    ∀ (new cur : List String) (x : String), x ∈ addMissing cur new → x ∈ cur ∨ x ∈ new := by
  intro new
  induction new with
  | nil => intro cur x h; exact Or.inl h
  | cons ph t ih =>
    intro cur x h
    unfold addMissing at h
    rw [List.foldl_cons] at h
    rcases ih _ x h with h' | h'
    · by_cases hmem : ph ∈ cur
      · rw [if_pos hmem] at h'
        exact Or.inl h'
      · rw [if_neg hmem] at h'
        rcases List.mem_append.mp h' with h'' | h''
        · exact Or.inl h''
        · simp only [List.mem_singleton] at h''
          exact Or.inr (h'' ▸ List.mem_cons_self ph t)
    · exact Or.inr (List.mem_cons_of_mem ph h')

theorem applyAction_no_as_needed (p : WritingPattern) (a : UserAction)
    (hc : "as needed" ∉ p.commonPhrases) (hav : "as needed" ∉ p.avoidedPhrases) :
    "as needed" ∉ (applyAction p a).commonPhrases ∧
    "as needed" ∉ (applyAction p a).avoidedPhrases := by
  unfold applyAction
  split_ifs
  · unfold reinforceSuggestion
    refine ⟨?_, hav⟩
    intro h
    rcases mem_addMissing _ _ _ h with h' | h'
    · exact hc h'
    · exact as_needed_not_extracted _ h'
  · unfold penalizeSuggestion
    refine ⟨hc, ?_⟩
    intro h
    rcases mem_addMissing _ _ _ h with h' | h'
    · exact hav h'
    · exact as_needed_not_extracted _ h'
  · unfold learnFromModification
    constructor
    · intro h
      rcases mem_addMissing _ _ _ h with h' | h'
      · exact hc h'
      · exact as_needed_not_extracted _ (List.mem_filter.mp h').1
    · intro h
      rcases mem_addMissing _ _ _ h with h' | h'
      · exact hav h'
      · exact as_needed_not_extracted _ (List.mem_filter.mp h').1
  · exact ⟨hc, hav⟩

/-- C10: `_extract_key_phrases` returns at most 5 phrases, each a 2- or
3-token sequence of whitespace-free tokens all longer than 3 characters;
consequently a phrase with a short token, such as "as needed", is never
extracted, so the profile-update paths never append it to
`common_phrases` or `avoided_phrases` (and it can then never trigger the
avoided-phrase penalty of the personalization score). -/
theorem extract_key_phrases_spec :
    (∀ text, (extractKeyPhrases text).length ≤ 5) ∧
    (∀ text, ∀ p ∈ extractKeyPhrases text, goodPhrase p) ∧
    (∀ text, "as needed" ∉ extractKeyPhrases text) ∧
    (∀ (p : WritingPattern) (acts : List UserAction),
       "as needed" ∉ p.commonPhrases → "as needed" ∉ p.avoidedPhrases →
       "as needed" ∉ (acts.foldl applyAction p).commonPhrases ∧
       "as needed" ∉ (acts.foldl applyAction p).avoidedPhrases) := by
  refine ⟨?_, extract_good, as_needed_not_extracted, ?_⟩
  · intro text
    unfold extractKeyPhrases
    rw [List.length_take]
    exact min_le_left _ _
  · intro p acts
    induction acts generalizing p with
    | nil => intro hc hav; exact ⟨hc, hav⟩
    | cons a t ih =>
      intro hc hav
      rw [List.foldl_cons]
      have h := applyAction_no_as_needed p a hc hav
      exact ih _ h.1 h.2

theorem extract_key_phrases_spec_witness :
    goodPhrase "patients will" ∧
    ("as needed" ∉ (List.foldl applyAction freshProfile [sampleAccept]).commonPhrases ∧
     "as needed" ∉ (List.foldl applyAction freshProfile [sampleAccept]).avoidedPhrases) :=
  ⟨extract_key_phrases_spec.2.1 "Patients will be monitored" "patients will" (by decide),
   extract_key_phrases_spec.2.2.2 freshProfile [sampleAccept] (by decide) (by decide)⟩

end

end ProtoIntel
